import Mathlib

/-! Shallow embedding of the `scan` helper of `elasticsearch_async/helpers.py`,
an async generator paginating over the search engine scroll API, together with
theorems about its observable behaviour.  Network interaction is modelled by a
scripted engine: the initial search response plus the list of responses that
successive scroll calls will return; asking for a response beyond the script
models the scroll call failing with a transport error.  The module's only
dependency line is `asyncio`; the globals `logger` and `ScanError` used on the
shard-failure branch are defined nowhere, so executing that branch raises
`NameError` at `logger.warning(...)` — the embedding records this as
`Outcome.nameError`, and the `raise ScanError` statement below it is
unreachable. -/

namespace ESAsync

/-- A hit document; opaque to `scan`, passed through to the consumer unchanged. -/
abbrev Hit := String

/-- A Python dict as used for the query body: an association list of string
keys and values (a well-formed dict binds each key at most once). -/
abbrev Query := List (String × String)

/-- Python dict assignment `q[k] = v`: overwrite the binding of `k` in place
if present (keeping its position), otherwise append a new binding. -/
def setKey : Query → String → String → Query
  | [], k, v => [(k, v)]
  | (k', v') :: t, k, v =>
      if k' = k then (k, v) :: t else (k', v') :: setKey t k v

/-- How many bindings of key `k` the dict `q` holds. -/
def countKey (q : Query) (k : String) : Nat :=
  (q.filter fun p => p.1 == k).length

/-- An object store giving Python dicts identity: a reference is an index
into the list of live objects. -/
structure Store where
  objs : List Query
deriving DecidableEq

/-- Dereference `r` (unallocated references read as the empty dict). -/
def Store.get (st : Store) (r : Nat) : Query :=
  st.objs.getD r []

/-- Allocate a fresh object holding `q`; returns the new store and the fresh
reference. -/
def Store.alloc (st : Store) (q : Query) : Store × Nat :=
  (⟨st.objs ++ [q]⟩, st.objs.length)

/-- Overwrite the object at reference `r`. -/
def Store.put (st : Store) (r : Nat) (q : Query) : Store :=
  ⟨st.objs.set r q⟩

/-- Lines 45-47 of the source, with explicit object identity:
`query = query.copy() if query else {}` rebinds `query` to a NEW dict — a
copy of the caller's dict, or a fresh empty dict when the argument is absent
or an empty dict (both falsy, hence the same empty contents either way) —
and `query["sort"] = "_doc"` then mutates only that new dict.  When
`preserve_order` is true neither line runs. -/
def prepareQuery (preserve_order : Bool) (st : Store) (query : Option Nat) :
    Store × Option Nat :=
  if preserve_order then (st, query)
  else
    let base : Query := match query with
      | some r => st.get r
      | none => []
    let a := st.alloc base
    let st2 := a.1.put a.2 (setKey (a.1.get a.2) "sort" "_doc")
    (st2, some a.2)

/-- The value of the search body `scan` sends: the same computation as
`prepareQuery` but on dict values rather than references. -/
def prepareBody (preserve_order : Bool) (query : Option Query) : Option Query :=
  if preserve_order then query
  else some (setKey (match query with | some q => q | none => []) "sort" "_doc")

/-- The `_shards` summary of a response. -/
structure Shards where
  total : Nat
  failed : Nat
deriving DecidableEq

/-- A search/scroll response: `resp.get('_scroll_id')`,
`resp['hits']['hits']` and `resp['_shards']`. -/
structure Response where
  scroll_id : Option String
  hits : List Hit
  shards : Shards
deriving DecidableEq

/-- What the engine would answer to the (never awaited) cleanup call. -/
inductive ClearOutcome where
  | ok
  | notFound
  | otherError
deriving DecidableEq

/-- A scripted engine: the initial search response, the responses returned by
successive scroll calls in order, and how a clear-scroll call would fare. -/
structure Server where
  initial : Response
  scrolls : List Response
  clearBehavior : ClearOutcome
deriving DecidableEq

/-- Observable events of one `scan` run, in order.  `clearScrollCall` records
the `ignore=(404,)` argument and whether the call was awaited. -/
inductive Event where
  | searchCall (body : Option Query)
  | yieldHit (h : Hit)
  | scrollCall (id : String)
  | clearScrollCall (id : String) (ignore404 : Bool) (awaited : Bool)
deriving DecidableEq

/-- How a run ends.  `nameError`: the shard-failure branch read the undefined
module global `logger`.  `transportError`: a scroll call failed (the script
was exhausted).  `cancelled`: the consumer closed the generator early, so
GeneratorExit was raised at the yield where it was suspended. -/
inductive Outcome where
  | done
  | nameError
  | transportError
  | cancelled
deriving DecidableEq

/-- The two boolean options of `scan` that steer the loop.  Note that
`raise_on_error` is never consulted at run time: it is only read inside the
shard-failure branch, strictly after `logger.warning(...)` has already raised
`NameError` on the undefined name `logger`. -/
structure ScanConfig where
  raise_on_error : Bool
  clear_scroll : Bool
deriving DecidableEq

/-- Result of yielding one batch: the yield events that happened, the number
of hits the consumer still wants (`none` = unbounded), and whether the
consumer closed the generator at one of these yields. -/
structure YieldResult where
  events : List Event
  rest : Option Nat
  closed : Bool
deriving DecidableEq

/-- The `for hit in resp['hits']['hits']: yield hit` loop (lines 65-66),
against a consumer that takes `budget` more hits and then closes the
generator: GeneratorExit is raised at the yield of the last hit taken, so
code after that yield does not run. -/
def yieldHits : Option Nat → List Hit → YieldResult
  | b, [] => ⟨[], b, false⟩
  | none, h :: t =>
      let y := yieldHits none t
      ⟨.yieldHit h :: y.events, y.rest, y.closed⟩
  | some 0, _ :: _ => ⟨[], some 0, true⟩
  | some 1, h :: _ => ⟨[.yieldHit h], some 0, true⟩
  | some (n + 2), h :: t =>
      let y := yieldHits (some (n + 1)) t
      ⟨.yieldHit h :: y.events, y.rest, y.closed⟩

/-- Result of the scroll loop: the events emitted inside the `try`, the
outcome, and the value of the `scroll_id` variable when the `finally` runs. -/
structure LoopResult where
  events : List Event
  outcome : Outcome
  finalId : Option String
deriving DecidableEq

/-- What one pass of the loop body decides: leave the loop (with these
events, this outcome and this final `scroll_id` value), or go on to the next
scroll call with identifier `s`. -/
inductive Step where
  | stop (events : List Event) (outcome : Outcome) (finalId : Option String)
  | next (events : List Event) (rest : Option Nat) (s : String)
deriving DecidableEq

/-- One pass of the body of the `while True` loop (lines 57-84).  `resp` is
the response being processed and `sid` the value of the `scroll_id` variable
while processing it (the identifier under which `resp` was obtained; for the
first round, the initial response's own identifier).  In order: yield the
batch (stopping with `cancelled` if the consumer closes the generator at one
of those yields); then, if any shard failed, evaluate `logger.warning(...)`,
which raises `NameError` since `logger` is undefined in the module — so
neither the warning nor the `raise ScanError` below it is ever reached; then
rebind `scroll_id` from the response and break when it is None or the batch
was empty, otherwise continue to the next scroll call. -/
def roundStep (_cfg : ScanConfig) (budget : Option Nat) (resp : Response)
    (sid : String) : Step :=
  let y := yieldHits budget resp.hits
  if y.closed then .stop y.events .cancelled (some sid)
  else if resp.shards.failed ≠ 0 then .stop y.events .nameError (some sid)
  else
    match resp.scroll_id, resp.hits with
    | some s, _ :: _ => .next y.events y.rest s
    | newId, _ => .stop y.events .done newId

/-- The `while True` loop (lines 57-84): run `roundStep` on the current
response and, while it continues, feed it the next scripted response;
a continuation past the end of the script models the scroll call raising a
transport error. -/
def processRound (cfg : ScanConfig) :
    Option Nat → Response → String → List Response → LoopResult
  | budget, resp, sid, [] =>
      match roundStep cfg budget resp sid with
      | .stop es o fid => ⟨es, o, fid⟩
      | .next es _ s => ⟨es ++ [.scrollCall s], .transportError, some s⟩
  | budget, resp, sid, r :: rest =>
      match roundStep cfg budget resp sid with
      | .stop es o fid => ⟨es, o, fid⟩
      | .next es b' s =>
          let c := processRound cfg b' r s rest
          ⟨es ++ .scrollCall s :: c.events, c.outcome, c.finalId⟩

/-- A whole run: the event trace, the outcome, and the `scroll_id` value the
`finally` block saw. -/
structure ScanResult where
  trace : List Event
  outcome : Outcome
  finalScrollId : Option String
deriving DecidableEq

/-- The `scan` async generator (lines 6-87 of the source) run against the
scripted engine `srv`, for a consumer that takes `budget` hits (`none`:
consumes everything; `some 0`: closes the generator before it ever starts, so
the body never runs).  After the initial search, `if scroll_id is None:
return` ends the run before the `try`, so no cleanup happens on that path
(note an empty-string identifier is not None and does enter the loop).  The
`finally` (lines 85-87) evaluates `client.clear_scroll(body={'scroll_id':
[scroll_id]}, ignore=(404,))` — without `await` — only when the `scroll_id`
variable is truthy (non-None and non-empty) and `clear_scroll` was set. -/
def scan (cfg : ScanConfig) (preserve_order : Bool) (query : Option Query)
    (srv : Server) (budget : Option Nat) : ScanResult :=
  if budget = some 0 then ⟨[], .cancelled, none⟩
  else
    let body := prepareBody preserve_order query
    match srv.initial.scroll_id with
    | none => ⟨[.searchCall body], .done, none⟩
    | some s0 =>
      let L := processRound cfg budget srv.initial s0 srv.scrolls
      let clears : List Event :=
        if L.finalId.getD "" ≠ "" ∧ cfg.clear_scroll = true then
          [.clearScrollCall (L.finalId.getD "") true false]
        else []
      ⟨.searchCall body :: L.events ++ clears, L.outcome, L.finalId⟩

/-- The hit, if the event is a yield. -/
def hitOf : Event → Option Hit
  | .yieldHit h => some h
  | _ => none

/-- The identifier passed, if the event is a scroll call. -/
def scrollIdOf : Event → Option String
  | .scrollCall s => some s
  | _ => none

/-- The identifier named, if the event is a clear-scroll call. -/
def clearIdOf : Event → Option String
  | .clearScrollCall s _ _ => some s
  | _ => none

/-- Hits emitted along a trace, in order. -/
def yieldsOf (tr : List Event) : List Hit := tr.filterMap hitOf

/-- Identifiers passed to scroll calls along a trace, in order. -/
def scrollCallIds (tr : List Event) : List String := tr.filterMap scrollIdOf

/-- Identifiers named by clear-scroll calls along a trace, in order. -/
def clearCallIds (tr : List Event) : List String := tr.filterMap clearIdOf

lemma yieldHits_none (l : List Hit) : yieldHits none l = ⟨l.map .yieldHit, none, false⟩ := by
  induction l with
  | nil => rfl
  | cons h t ih => simp [yieldHits, ih]

lemma yieldHits_events_shape (b : Option Nat) (l : List Hit) :
    ∃ k, (yieldHits b l).events = (l.take k).map Event.yieldHit := by
  induction l generalizing b with
  | nil => exact ⟨0, by simp [yieldHits]⟩
  | cons h t ih =>
    cases b with
    | none =>
      obtain ⟨k, hk⟩ := ih none
      exact ⟨k + 1, by simp [yieldHits, hk]⟩
    | some n =>
      rcases n with _ | _ | m
      · exact ⟨0, by simp [yieldHits]⟩
      · exact ⟨1, by simp [yieldHits]⟩
      · obtain ⟨k, hk⟩ := ih (some (m + 1))
        exact ⟨k + 1, by simp [yieldHits, hk]⟩

lemma yieldsOf_map_yieldHit (l : List Hit) : yieldsOf (l.map Event.yieldHit) = l := by
  induction l <;> simp_all [yieldsOf, hitOf]

lemma scrollCallIds_map_yieldHit (l : List Hit) : scrollCallIds (l.map Event.yieldHit) = [] := by
  induction l <;> simp_all [scrollCallIds, scrollIdOf]

lemma clearCallIds_map_yieldHit (l : List Hit) : clearCallIds (l.map Event.yieldHit) = [] := by
  induction l <;> simp_all [clearCallIds, clearIdOf]

lemma scrollCallIds_yieldHits (b : Option Nat) (l : List Hit) :
    scrollCallIds (yieldHits b l).events = [] := by
  obtain ⟨k, hk⟩ := yieldHits_events_shape b l
  rw [hk]; exact scrollCallIds_map_yieldHit _

lemma clearCallIds_yieldHits (b : Option Nat) (l : List Hit) :
    clearCallIds (yieldHits b l).events = [] := by
  obtain ⟨k, hk⟩ := yieldHits_events_shape b l
  rw [hk]; exact clearCallIds_map_yieldHit _

lemma roundStep_stop_events (cfg : ScanConfig) (b : Option Nat) (resp : Response) (sid : String)
    (es : List Event) (o : Outcome) (fid : Option String)
    (h : roundStep cfg b resp sid = .stop es o fid) :
    es = (yieldHits b resp.hits).events := by
  simp only [roundStep] at h
  split at h
  · cases h; rfl
  · split at h
    · cases h; rfl
    · split at h
      · cases h
      · cases h; rfl

lemma roundStep_next_inv (cfg : ScanConfig) (b : Option Nat) (resp : Response) (sid : String)
    (es : List Event) (b' : Option Nat) (s : String)
    (h : roundStep cfg b resp sid = .next es b' s) :
    es = (yieldHits b resp.hits).events ∧ b' = (yieldHits b resp.hits).rest ∧
      resp.scroll_id = some s ∧ resp.hits ≠ [] ∧
      (yieldHits b resp.hits).closed = false ∧ resp.shards.failed = 0 := by
  simp only [roundStep] at h
  split at h
  · cases h
  · split at h
    · cases h
    · split at h
      · cases h
        exact ⟨rfl, rfl, by assumption, by simp_all, by simp_all, by omega⟩
      · cases h

lemma processRound_stop (cfg : ScanConfig) (b : Option Nat) (resp : Response) (sid : String)
    (script : List Response) (es : List Event) (o : Outcome) (fid : Option String)
    (h : roundStep cfg b resp sid = .stop es o fid) :
    processRound cfg b resp sid script = ⟨es, o, fid⟩ := by
  cases script <;> simp [processRound, h]

lemma processRound_next_nil (cfg : ScanConfig) (b : Option Nat) (resp : Response) (sid : String)
    (es : List Event) (b' : Option Nat) (s : String)
    (h : roundStep cfg b resp sid = .next es b' s) :
    processRound cfg b resp sid [] = ⟨es ++ [.scrollCall s], .transportError, some s⟩ := by
  simp [processRound, h]

lemma processRound_next_cons (cfg : ScanConfig) (b : Option Nat) (resp : Response) (sid : String)
    (es : List Event) (b' : Option Nat) (s : String) (r : Response) (rest : List Response)
    (h : roundStep cfg b resp sid = .next es b' s) :
    processRound cfg b resp sid (r :: rest) =
      ⟨es ++ .scrollCall s :: (processRound cfg b' r s rest).events,
       (processRound cfg b' r s rest).outcome, (processRound cfg b' r s rest).finalId⟩ := by
  simp [processRound, h]

lemma yieldsOf_append (l1 l2 : List Event) :
    yieldsOf (l1 ++ l2) = yieldsOf l1 ++ yieldsOf l2 := by
  simp only [yieldsOf, List.filterMap_append]

lemma scrollCallIds_append (l1 l2 : List Event) :
    scrollCallIds (l1 ++ l2) = scrollCallIds l1 ++ scrollCallIds l2 := by
  simp only [scrollCallIds, List.filterMap_append]

lemma clearCallIds_append (l1 l2 : List Event) :
    clearCallIds (l1 ++ l2) = clearCallIds l1 ++ clearCallIds l2 := by
  simp only [clearCallIds, List.filterMap_append]

lemma yieldsOf_scrollCall_cons (s : String) (tr : List Event) :
    yieldsOf (.scrollCall s :: tr) = yieldsOf tr := by
  simp [yieldsOf, hitOf]

lemma scrollCallIds_scrollCall_cons (s : String) (tr : List Event) :
    scrollCallIds (.scrollCall s :: tr) = s :: scrollCallIds tr := by
  simp [scrollCallIds, scrollIdOf]

lemma clearCallIds_scrollCall_cons (s : String) (tr : List Event) :
    clearCallIds (.scrollCall s :: tr) = clearCallIds tr := by
  simp [clearCallIds, clearIdOf]

/-- The loop body emits no clear-scroll event: cleanup can only come from the
`finally` block. -/
lemma processRound_clear_nil (cfg : ScanConfig) :
    ∀ (script : List Response) (b : Option Nat) (resp : Response) (sid : String),
      clearCallIds (processRound cfg b resp sid script).events = [] := by
  intro script
  induction script with
  | nil =>
    intro b resp sid
    cases h : roundStep cfg b resp sid with
    | stop es o fid =>
      rw [processRound_stop cfg b resp sid [] es o fid h]
      rw [roundStep_stop_events cfg b resp sid es o fid h]
      exact clearCallIds_yieldHits b resp.hits
    | next es b' s =>
      rw [processRound_next_nil cfg b resp sid es b' s h]
      obtain ⟨he, -, -, -, -, -⟩ := roundStep_next_inv cfg b resp sid es b' s h
      subst he
      dsimp only
      rw [clearCallIds_append, clearCallIds_yieldHits]
      rfl
  | cons r rest ih =>
    intro b resp sid
    cases h : roundStep cfg b resp sid with
    | stop es o fid =>
      rw [processRound_stop cfg b resp sid (r :: rest) es o fid h]
      rw [roundStep_stop_events cfg b resp sid es o fid h]
      exact clearCallIds_yieldHits b resp.hits
    | next es b' s =>
      rw [processRound_next_cons cfg b resp sid es b' s r rest h]
      obtain ⟨he, -, -, -, -, -⟩ := roundStep_next_inv cfg b resp sid es b' s h
      subst he
      dsimp only
      rw [clearCallIds_append, clearCallIds_yieldHits, clearCallIds_scrollCall_cons, ih b' r s]
      rfl

/-- Along the loop, the k-th scroll call passes exactly the scroll identifier
of the k-th response in arrival order (`resp` first, then the scripted
responses). -/
lemma processRound_scroll_chain (cfg : ScanConfig) :
    ∀ (script : List Response) (b : Option Nat) (resp : Response) (sid : String),
      (scrollCallIds (processRound cfg b resp sid script).events).map some =
        ((resp :: script).take
            (scrollCallIds (processRound cfg b resp sid script).events).length).map
          Response.scroll_id := by
  intro script
  induction script with
  | nil =>
    intro b resp sid
    cases h : roundStep cfg b resp sid with
    | stop es o fid =>
      rw [processRound_stop cfg b resp sid [] es o fid h]
      rw [roundStep_stop_events cfg b resp sid es o fid h]
      rw [scrollCallIds_yieldHits]
      rfl
    | next es b' s =>
      rw [processRound_next_nil cfg b resp sid es b' s h]
      obtain ⟨he, -, hsid, -, -, -⟩ := roundStep_next_inv cfg b resp sid es b' s h
      subst he
      dsimp only
      rw [scrollCallIds_append, scrollCallIds_yieldHits]
      simp [scrollCallIds, scrollIdOf, hsid]
  | cons r rest ih =>
    intro b resp sid
    cases h : roundStep cfg b resp sid with
    | stop es o fid =>
      rw [processRound_stop cfg b resp sid (r :: rest) es o fid h]
      rw [roundStep_stop_events cfg b resp sid es o fid h]
      rw [scrollCallIds_yieldHits]
      rfl
    | next es b' s =>
      rw [processRound_next_cons cfg b resp sid es b' s r rest h]
      obtain ⟨he, -, hsid, -, -, -⟩ := roundStep_next_inv cfg b resp sid es b' s h
      subst he
      dsimp only
      rw [scrollCallIds_append, scrollCallIds_yieldHits, scrollCallIds_scrollCall_cons]
      have hih := ih b' r s
      simp [hsid, List.take_succ_cons, hih]

/-- A fully consumed, shard-clean loop that terminates normally emits exactly
the hits of its first response followed by the hits of every scroll response
it received, in arrival order. -/
lemma processRound_yields_done (cfg : ScanConfig) :
    ∀ (script : List Response) (resp : Response) (sid : String),
      (∀ x ∈ resp :: script, x.shards.failed = 0) →
      (processRound cfg none resp sid script).outcome = .done →
      yieldsOf (processRound cfg none resp sid script).events =
        resp.hits ++
          ((script.take
              (scrollCallIds (processRound cfg none resp sid script).events).length).map
            Response.hits).flatten := by
  intro script
  induction script with
  | nil =>
    intro resp sid _ hdone
    cases h : roundStep cfg none resp sid with
    | stop es o fid =>
      rw [processRound_stop cfg none resp sid [] es o fid h]
      rw [roundStep_stop_events cfg none resp sid es o fid h]
      rw [scrollCallIds_yieldHits, yieldHits_none]
      simp [yieldsOf_map_yieldHit]
    | next es b' s =>
      rw [processRound_next_nil cfg none resp sid es b' s h] at hdone
      cases hdone
  | cons r rest ih =>
    intro resp sid hsh hdone
    cases h : roundStep cfg none resp sid with
    | stop es o fid =>
      rw [processRound_stop cfg none resp sid (r :: rest) es o fid h]
      rw [roundStep_stop_events cfg none resp sid es o fid h]
      rw [scrollCallIds_yieldHits, yieldHits_none]
      simp [yieldsOf_map_yieldHit]
    | next es b' s =>
      have hpr := processRound_next_cons cfg none resp sid es b' s r rest h
      obtain ⟨he, hb, hsid, -, -, -⟩ := roundStep_next_inv cfg none resp sid es b' s h
      rw [yieldHits_none] at he hb
      subst he
      subst hb
      rw [hpr] at hdone ⊢
      dsimp only at hdone ⊢
      have hih := ih r s (fun x hx => hsh x (List.mem_cons_of_mem resp hx)) hdone
      rw [yieldsOf_append, yieldsOf_map_yieldHit, yieldsOf_scrollCall_cons,
        scrollCallIds_append, scrollCallIds_map_yieldHit, scrollCallIds_scrollCall_cons]
      simp [List.take_succ_cons, hih]

lemma yieldsOf_searchCall_cons (b : Option Query) (tr : List Event) :
    yieldsOf (.searchCall b :: tr) = yieldsOf tr := by
  simp [yieldsOf, hitOf]

lemma scrollCallIds_searchCall_cons (b : Option Query) (tr : List Event) :
    scrollCallIds (.searchCall b :: tr) = scrollCallIds tr := by
  simp [scrollCallIds, scrollIdOf]

lemma clearCallIds_searchCall_cons (b : Option Query) (tr : List Event) :
    clearCallIds (.searchCall b :: tr) = clearCallIds tr := by
  simp [clearCallIds, clearIdOf]

lemma yieldsOf_clears (c : Prop) [Decidable c] (s : String) :
    yieldsOf (if c then [Event.clearScrollCall s true false] else []) = [] := by
  split <;> rfl

lemma scrollCallIds_clears (c : Prop) [Decidable c] (s : String) :
    scrollCallIds (if c then [Event.clearScrollCall s true false] else []) = [] := by
  split <;> rfl

/-- C8: every scroll call passes exactly the scroll identifier of the
immediately preceding response (the initial search response for the first
scroll call), so at any moment only the single most recently received
identifier is in play. -/
theorem scan_scroll_id_chain (cfg : ScanConfig) (po : Bool) (q : Option Query)
    (srv : Server) (budget : Option Nat) :
    (scrollCallIds (scan cfg po q srv budget).trace).map some =
      (((srv.initial :: srv.scrolls).take
          (scrollCallIds (scan cfg po q srv budget).trace).length).map
        Response.scroll_id) := by
  unfold scan
  split
  · rfl
  · dsimp only
    split
    · rfl
    · dsimp only
      simp only [scrollCallIds_searchCall_cons, scrollCallIds_append, scrollCallIds_clears,
        List.append_nil]
      exact processRound_scroll_chain cfg srv.scrolls budget srv.initial _

lemma getD_append_lt (l l2 : List Query) (i : Nat) (h : i < l.length) :
    (l ++ l2).getD i [] = l.getD i [] := by
  induction l generalizing i with
  | nil => exact absurd h (by simp)
  | cons a t ih =>
    cases i with
    | zero => rfl
    | succ j => exact ih j (by simpa using h)

lemma getD_append_self (l : List Query) (x : Query) :
    (l ++ [x]).getD l.length [] = x := by
  induction l with
  | nil => rfl
  | cons a t ih => exact ih

lemma set_append_self (l : List Query) (x y : Query) :
    (l ++ [x]).set l.length y = l ++ [y] := by
  induction l with
  | nil => rfl
  | cons a t ih =>
    show a :: (t ++ [x]).set t.length y = a :: (t ++ [y])
    rw [ih]

lemma prepareQuery_some_eq (st : Store) (r : Nat) :
    prepareQuery false st (some r) =
      (⟨st.objs ++ [setKey (st.get r) "sort" "_doc"]⟩, some st.objs.length) := by
  unfold prepareQuery Store.alloc Store.put Store.get
  simp only [Bool.false_eq_true, if_false]
  rw [getD_append_self, set_append_self]

lemma prepareQuery_none_eq (st : Store) :
    prepareQuery false st none =
      (⟨st.objs ++ [[("sort", "_doc")]]⟩, some st.objs.length) := by
  unfold prepareQuery Store.alloc Store.put Store.get
  simp only [Bool.false_eq_true, if_false]
  rw [getD_append_self, set_append_self]
  rfl

lemma countKey_cons (p : String × String) (t : Query) (k : String) :
    countKey (p :: t) k = (if p.1 == k then 1 else 0) + countKey t k := by
  by_cases h : p.1 == k
  · simp [countKey, List.filter_cons, h]
    omega
  · simp [countKey, List.filter_cons, h]

lemma countKey_setKey (q : Query) (k v : String) (h : countKey q k ≤ 1) :
    countKey (setKey q k v) k = 1 := by
  induction q with
  | nil => simp [setKey, countKey]
  | cons p t ih =>
    obtain ⟨k0, v0⟩ := p
    rw [countKey_cons] at h
    by_cases hk : k0 = k
    · subst hk
      have hs : setKey ((k0, v0) :: t) k0 v = (k0, v) :: t := by simp [setKey]
      rw [hs, countKey_cons]
      simp at h ⊢
      omega
    · have hb : (k0 == k) = false := by simp [hk]
      have hs : setKey ((k0, v0) :: t) k v = (k0, v0) :: setKey t k v := by
        simp [setKey, hk]
      rw [hs, countKey_cons]
      simp only [hb] at h ⊢
      simp at h ⊢
      exact ih (by omega)

lemma scan_clear_event_inv (cfg : ScanConfig) (po : Bool) (q : Option Query)
    (srv : Server) (budget : Option Nat) (id : String) (ig aw : Bool)
    (h : Event.clearScrollCall id ig aw ∈ (scan cfg po q srv budget).trace) :
    ig = true ∧ aw = false := by
  unfold scan at h
  split at h
  · simp at h
  · dsimp only at h
    split at h
    · simp at h
    · dsimp only at h
      rcases List.mem_cons.mp h with h1 | h2
      · exact absurd h1 (by simp)
      · rcases List.mem_append.mp h2 with h3 | h4
        · exfalso
          have hm : id ∈ clearCallIds (processRound cfg budget srv.initial _ srv.scrolls).events :=
            List.mem_filterMap.mpr ⟨_, h3, rfl⟩
          rw [processRound_clear_nil] at hm
          exact absurd hm (List.not_mem_nil id)
        · split at h4
          · rw [List.mem_singleton] at h4
            injection h4 with h5 h6 h7
            exact ⟨h6, h7⟩
          · simp at h4

/-- Engine where the terminating response carries no scroll identifier: two
pages, the second with `_scroll_id` None. -/
def srvNullEnd : Server :=
  ⟨⟨some "a1", ["h1", "h2"], ⟨3, 0⟩⟩, [⟨none, ["h3"], ⟨3, 0⟩⟩], .ok⟩

/-- The spec's worked example: page1=[A,B]/"s1", page2=[C]/"s2",
page3=[]/None. -/
def srvPages : Server :=
  ⟨⟨some "s1", ["A", "B"], ⟨1, 0⟩⟩,
   [⟨some "s2", ["C"], ⟨1, 0⟩⟩, ⟨none, [], ⟨1, 0⟩⟩], .ok⟩

/-- Engine whose run ends with an empty page that still carries a live
identifier "t3", so the cleanup call fires. -/
def srvLive : Server :=
  ⟨⟨some "t1", ["x1"], ⟨2, 0⟩⟩,
   [⟨some "t2", ["x2"], ⟨2, 0⟩⟩, ⟨some "t3", [], ⟨2, 0⟩⟩], .notFound⟩

/-- Engine whose initial response has hits but no scroll identifier. -/
def srvNoId : Server := ⟨⟨none, ["z1", "z2"], ⟨1, 0⟩⟩, [], .ok⟩

/-- C1 (amended): on every run, a clear-scroll call happens exactly once when
the `scroll_id` variable held at exit is truthy (non-None, non-empty) and
auto-clear is on — and it names exactly that identifier; otherwise (falsy
final identifier, or auto-clear off) no clear-scroll call happens at all. -/
theorem scan_clear_call_exactly_on_truthy_final_id (cfg : ScanConfig) (po : Bool)
    (q : Option Query) (srv : Server) (budget : Option Nat) :
    clearCallIds (scan cfg po q srv budget).trace =
      (match (scan cfg po q srv budget).finalScrollId with
       | some s => if s ≠ "" ∧ cfg.clear_scroll = true then [s] else []
       | none => []) := by
  unfold scan
  split
  · rfl
  · dsimp only
    split
    · rfl
    · rename_i s0 hs0
      dsimp only
      simp only [clearCallIds_searchCall_cons, clearCallIds_append, processRound_clear_nil,
        List.nil_append]
      cases hfid : (processRound cfg budget srv.initial s0 srv.scrolls).finalId with
      | none => simp [clearCallIds]
      | some s =>
        by_cases hc : s ≠ "" ∧ cfg.clear_scroll = true
        · simp [hc, clearCallIds, clearIdOf]
        · simp [hc, clearCallIds]

/-- C1 (counterexample): a session with auto-clear on that establishes scroll
state (one scroll call with "a1") and exits by normal exhaustion, yet makes
no clear-scroll call, because the terminating response's None identifier
overwrote the held one before the `finally` ran. -/
theorem scan_normal_exit_without_clear_call :
    (scan ⟨true, true⟩ false none srvNullEnd none).outcome = .done ∧
    scrollCallIds (scan ⟨true, true⟩ false none srvNullEnd none).trace = ["a1"] ∧
    clearCallIds (scan ⟨true, true⟩ false none srvNullEnd none).trace = [] := by
  decide

/-- C2 (code evaluation): whenever a processed response reports a failed
shard, the run aborts with `NameError` right after that round's hits — the
module global `logger` is undefined, so no warning is logged, `raise_on_error`
is never consulted, and `ScanError` is never raised. -/
theorem processRound_shard_failure_name_error (cfg : ScanConfig) (resp : Response)
    (sid : String) (script : List Response) (hf : resp.shards.failed ≠ 0) :
    processRound cfg none resp sid script =
      ⟨resp.hits.map Event.yieldHit, .nameError, some sid⟩ := by
  have hr : roundStep cfg none resp sid =
      .stop (resp.hits.map Event.yieldHit) .nameError (some sid) := by
    simp [roundStep, yieldHits_none, hf]
  exact processRound_stop cfg none resp sid script _ _ _ hr

theorem processRound_shard_failure_name_error_witness :
    ((⟨some "x", ["h"], ⟨5, 1⟩⟩ : Response).shards.failed ≠ 0) ∧
    processRound ⟨true, true⟩ none ⟨some "x", ["h"], ⟨5, 1⟩⟩ "x" [] =
      ⟨[.yieldHit "h"], .nameError, some "x"⟩ :=
  ⟨by decide,
   processRound_shard_failure_name_error ⟨true, true⟩ ⟨some "x", ["h"], ⟨5, 1⟩⟩ "x" []
     (by decide)⟩

/-- C3 (counterexample): in the spec's worked example the output and the two
scroll calls are as stated, but the clear-scroll call with "s2" is not made. -/
theorem scan_pages_clear_not_s2 :
    yieldsOf (scan ⟨true, true⟩ false (some []) srvPages none).trace = ["A", "B", "C"] ∧
    scrollCallIds (scan ⟨true, true⟩ false (some []) srvPages none).trace = ["s1", "s2"] ∧
    clearCallIds (scan ⟨true, true⟩ false (some []) srvPages none).trace ≠ ["s2"] := by
  decide

/-- C3 (amended): in the spec's worked example the output sequence is
[A,B,C] and exactly two scroll calls are made, but no clear-scroll call at
all: the terminating response's None identifier is assigned to `scroll_id`
before the loop breaks, so the `finally` sees a falsy identifier. -/
theorem scan_pages_no_clear_call :
    yieldsOf (scan ⟨true, true⟩ false (some []) srvPages none).trace = ["A", "B", "C"] ∧
    scrollCallIds (scan ⟨true, true⟩ false (some []) srvPages none).trace = ["s1", "s2"] ∧
    clearCallIds (scan ⟨true, true⟩ false (some []) srvPages none).trace = [] ∧
    (scan ⟨true, true⟩ false (some []) srvPages none).outcome = .done ∧
    (scan ⟨true, true⟩ false (some []) srvPages none).finalScrollId = none := by
  decide

/-- C4: when the initial response carries no scroll identifier the produced
sequence is empty and no clear-scroll call is made. -/
theorem scan_no_initial_id_empty_no_clear (cfg : ScanConfig) (po : Bool)
    (q : Option Query) (srv : Server) (budget : Option Nat)
    (h : srv.initial.scroll_id = none) :
    yieldsOf (scan cfg po q srv budget).trace = [] ∧
    clearCallIds (scan cfg po q srv budget).trace = [] := by
  unfold scan
  split
  · exact ⟨rfl, rfl⟩
  · rw [h]
    exact ⟨rfl, rfl⟩

theorem scan_no_initial_id_empty_no_clear_witness :
    (srvNoId.initial.scroll_id = none) ∧
    (yieldsOf (scan ⟨true, true⟩ false none srvNoId none).trace = [] ∧
     clearCallIds (scan ⟨true, true⟩ false none srvNoId none).trace = []) :=
  ⟨rfl, scan_no_initial_id_empty_no_clear ⟨true, true⟩ false none srvNoId none rfl⟩

/-- C5: a fully consumed scan with no shard failures that terminates
normally emits exactly the hits of the initial response followed by the hits
of every scroll response received, in arrival order. -/
theorem scan_emits_all_hits_in_order (cfg : ScanConfig) (po : Bool) (q : Option Query)
    (srv : Server) (h0 : srv.initial.scroll_id ≠ none)
    (hsh : ∀ x ∈ srv.initial :: srv.scrolls, x.shards.failed = 0)
    (hdone : (scan cfg po q srv none).outcome = .done) :
    yieldsOf (scan cfg po q srv none).trace =
      srv.initial.hits ++
        ((srv.scrolls.take
            (scrollCallIds (scan cfg po q srv none).trace).length).map
          Response.hits).flatten := by
  obtain ⟨s0, hs0⟩ : ∃ s, srv.initial.scroll_id = some s := by
    cases hx : srv.initial.scroll_id with
    | none => exact absurd hx h0
    | some s => exact ⟨s, rfl⟩
  unfold scan at hdone ⊢
  rw [if_neg (by simp : ¬ (none : Option Nat) = some 0)] at hdone ⊢
  rw [hs0] at hdone ⊢
  dsimp only at hdone ⊢
  simp only [yieldsOf_searchCall_cons, yieldsOf_append, yieldsOf_clears, List.append_nil,
    scrollCallIds_searchCall_cons, scrollCallIds_append, scrollCallIds_clears]
  exact processRound_yields_done cfg srv.scrolls srv.initial s0 hsh hdone

theorem scan_emits_all_hits_in_order_witness :
    (srvLive.initial.scroll_id ≠ none ∧
     (∀ x ∈ srvLive.initial :: srvLive.scrolls, x.shards.failed = 0) ∧
     (scan ⟨true, true⟩ false none srvLive none).outcome = .done) ∧
    yieldsOf (scan ⟨true, true⟩ false none srvLive none).trace =
      srvLive.initial.hits ++
        ((srvLive.scrolls.take
            (scrollCallIds (scan ⟨true, true⟩ false none srvLive none).trace).length).map
          Response.hits).flatten :=
  ⟨⟨by decide, by decide, by decide⟩,
   scan_emits_all_hits_in_order ⟨true, true⟩ false none srvLive (by decide) (by decide)
     (by decide)⟩

/-- C6: with preserve-order false, `scan` allocates a fresh dict (a copy of
the caller's query, or an empty one when none is supplied), sets its "sort"
key to "_doc" so that exactly one such binding results, and leaves the
caller's object — and every other live object — untouched. -/
theorem prepare_query_injects_sort_without_mutation (st : Store) (r : Nat)
    (hr : r < st.objs.length) (hdup : countKey (st.get r) "sort" ≤ 1) :
    ((prepareQuery false st (some r)).2 = some st.objs.length ∧
     r ≠ st.objs.length ∧
     (∀ r2, r2 < st.objs.length → (prepareQuery false st (some r)).1.get r2 = st.get r2) ∧
     (prepareQuery false st (some r)).1.get st.objs.length = setKey (st.get r) "sort" "_doc" ∧
     countKey ((prepareQuery false st (some r)).1.get st.objs.length) "sort" = 1) ∧
    ((prepareQuery false st none).2 = some st.objs.length ∧
     (∀ r2, r2 < st.objs.length → (prepareQuery false st none).1.get r2 = st.get r2) ∧
     (prepareQuery false st none).1.get st.objs.length = [("sort", "_doc")]) := by
  rw [prepareQuery_some_eq, prepareQuery_none_eq]
  refine ⟨⟨rfl, by omega, ?_, ?_, ?_⟩, rfl, ?_, ?_⟩
  · intro r2 h2
    exact getD_append_lt _ _ _ h2
  · exact getD_append_self _ _
  · rw [show (⟨st.objs ++ [setKey (st.get r) "sort" "_doc"]⟩ : Store).get st.objs.length
        = setKey (st.get r) "sort" "_doc" from getD_append_self _ _]
    exact countKey_setKey _ _ _ hdup
  · intro r2 h2
    exact getD_append_lt _ _ _ h2
  · exact getD_append_self _ _

theorem prepare_query_injects_sort_without_mutation_witness :
    ((0 : Nat) < (⟨[[("q", "x")]]⟩ : Store).objs.length ∧
     countKey ((⟨[[("q", "x")]]⟩ : Store).get 0) "sort" ≤ 1) ∧
    (prepareQuery false ⟨[[("q", "x")]]⟩ (some 0)).1.get 1 = [("q", "x"), ("sort", "_doc")] :=
  ⟨⟨by decide, by decide⟩, by
    have h := (prepare_query_injects_sort_without_mutation ⟨[[("q", "x")]]⟩ 0 (by decide)
      (by decide)).1.2.2.2.1
    exact h.trans (by decide)⟩

/-- C7: the cleanup call carries `ignore=(404,)` (a "not found" answer is
tolerated), and — being issued without `await` — nothing the engine would
answer to it can reach the run: the whole observable result is identical for
every clear-scroll behaviour of the engine, so no cleanup error ever masks
the original outcome. -/
theorem clear_scroll_best_effort_isolated (cfg : ScanConfig) (po : Bool)
    (q : Option Query) (init : Response) (scrolls : List Response)
    (b1 b2 : ClearOutcome) (budget : Option Nat) :
    scan cfg po q ⟨init, scrolls, b1⟩ budget = scan cfg po q ⟨init, scrolls, b2⟩ budget ∧
    (∀ id ig aw,
      Event.clearScrollCall id ig aw ∈ (scan cfg po q ⟨init, scrolls, b1⟩ budget).trace →
        ig = true) :=
  ⟨rfl, fun id ig aw h => (scan_clear_event_inv cfg po q _ budget id ig aw h).1⟩

theorem clear_scroll_best_effort_isolated_witness :
    (Event.clearScrollCall "t3" true false ∈
      (scan ⟨true, true⟩ false none ⟨srvLive.initial, srvLive.scrolls, .notFound⟩ none).trace) ∧
    true = true :=
  ⟨by decide,
   (clear_scroll_best_effort_isolated ⟨true, true⟩ false none srvLive.initial srvLive.scrolls
     .notFound .ok none).2 "t3" true false (by decide)⟩

/-- C9: when the initial response carries hit documents but no scroll
identifier, those hits are silently discarded — nothing is emitted and no
scroll call is ever issued. -/
theorem scan_discards_initial_hits_without_id (cfg : ScanConfig) (po : Bool)
    (q : Option Query) (srv : Server) (budget : Option Nat)
    (h : srv.initial.scroll_id = none) (_hh : srv.initial.hits ≠ []) :
    yieldsOf (scan cfg po q srv budget).trace = [] ∧
    scrollCallIds (scan cfg po q srv budget).trace = [] := by
  unfold scan
  split
  · exact ⟨rfl, rfl⟩
  · rw [h]
    exact ⟨rfl, rfl⟩

theorem scan_discards_initial_hits_without_id_witness :
    (srvNoId.initial.scroll_id = none ∧ srvNoId.initial.hits ≠ []) ∧
    (yieldsOf (scan ⟨true, true⟩ false none srvNoId none).trace = [] ∧
     scrollCallIds (scan ⟨true, true⟩ false none srvNoId none).trace = []) :=
  ⟨⟨rfl, by decide⟩,
   scan_discards_initial_hits_without_id ⟨true, true⟩ false none srvNoId none rfl (by decide)⟩

/-- C10: the cleanup call in the `finally` block is never awaited: every
clear-scroll event of every run records `awaited = false`, so the generator
finishes without waiting for (or executing) the clear-scroll operation. -/
theorem scan_clear_scroll_unawaited (cfg : ScanConfig) (po : Bool) (q : Option Query)
    (srv : Server) (budget : Option Nat) (id : String) (ig aw : Bool)
    (h : Event.clearScrollCall id ig aw ∈ (scan cfg po q srv budget).trace) :
    aw = false :=
  (scan_clear_event_inv cfg po q srv budget id ig aw h).2

theorem scan_clear_scroll_unawaited_witness :
    (Event.clearScrollCall "t3" true false ∈
      (scan ⟨true, true⟩ false none srvLive none).trace) ∧
    false = false :=
  ⟨by decide,
   scan_clear_scroll_unawaited ⟨true, true⟩ false none srvLive none "t3" true false (by decide)⟩

end ESAsync
